import Mathlib

/-!
Verification of the client-side WebSocket synchronization engine of the
`drawing-machine` repository (`src/frontend/src/composables/useWebSocket.ts`,
plus the actuator-command normalization in
`src/frontend/src/views/HomeView.vue`).

The embedding models the engine as a pure state machine:
* `Client` is the composable's closure state (`connectionStatus`, `ws`,
  `lastModeChangeTime`, `systemState`) together with ghost fields recording
  the outbound messages sent (`sent`), the diagnostics written via
  `console.error` (`diagnostics`), whether a reconnect `setTimeout` is
  outstanding (`reconnectPending`), and whether an `authenticated` reply has
  been received on the current socket (`authed`).
* JavaScript objects with string keys are association lists; property access
  is `lookupE`, property assignment is `setEntry`, and `Object.assign` is
  field-wise override (`mergeMotor` for motor-state records, `objAssign` for
  the free-form blockchain-data object).
* JavaScript numbers are modelled as `Int` (for velocities, where only sign
  and magnitude matter to the properties below) and `Nat` (for timestamps);
  `Date.now()` is an explicit `now` parameter of each event, and
  `Date.now() / 1000` is modelled as `now / 1000`.
* Socket events (`open`, `message`, `close`, `error`), timer callbacks and
  the public methods are the events of a step function `step`; `run` folds a
  list of events from the construction-time state `initClient`, giving the
  reachable states of the single-threaded event loop.
-/

namespace DrawingMachine

/-- A free-form JSON scalar, as stored in the blockchain-data object. -/
inductive JVal where
  | num (n : Int)
  | str (s : String)
  | bool (b : Bool)
deriving Repr, DecidableEq

/-- A JavaScript object with string keys: an association list. -/
abbrev Obj := List (String × JVal)

/-- Property access `o[k]` on a string-keyed object: first binding wins. -/
def lookupE {α : Type} : List (String × α) → String → Option α
  | [], _ => none
  | (k, v) :: rest, n => if k = n then some v else lookupE rest n

/-- Property assignment `o[k] = v`: replaces the first binding of `k`,
or appends a new binding when `k` is absent. -/
def setEntry {α : Type} : List (String × α) → String → α → List (String × α)
  | [], k, v => [(k, v)]
  | (k', v') :: rest, k, v =>
      if k' = k then (k, v) :: rest else (k', v') :: setEntry rest k v

/-- `Object.assign(dst, src)` on free-form objects, up to key order:
bindings of `src` shadow those of `dst` under first-binding lookup. -/
def objAssign (dst src : Obj) : Obj := src ++ dst

/-- One per-actuator record. Inbound updates are field-wise merges of
possibly-incomplete records, and an unknown actuator's record is stored
verbatim, so every field is optional (`none` = property absent). -/
structure MotorState where
  velocity_rpm : Option Int
  direction : Option String
  last_update : Option Nat
  is_enabled : Option Bool
deriving Repr, DecidableEq

/-- `Object.assign(old, upd)` on motor-state records: fields present in
`upd` overwrite, absent fields are preserved. -/
def mergeMotor (old upd : MotorState) : MotorState where
  velocity_rpm := upd.velocity_rpm <|> old.velocity_rpm
  direction := upd.direction <|> old.direction
  last_update := upd.last_update <|> old.last_update
  is_enabled := upd.is_enabled <|> old.is_enabled

/-- One entry of an inbound `motor_commands` mapping. -/
structure MotorCmd where
  velocity_rpm : Option Int
  direction : Option String
deriving Repr, DecidableEq

/-- The `SystemState` reactive mirror. -/
structure SystemState where
  mode : String
  motorStates : List (String × MotorState)
  blockchainData : Obj
deriving Repr, DecidableEq

/-- The `WebSocketOptions` given to `useWebSocket`. -/
structure WSOptions where
  clientType : String
  apiKey : Option String
  autoReconnect : Option Bool
  reconnectDelay : Option Nat
deriving Repr, DecidableEq

/-- `WebSocket.readyState`. -/
inductive ReadyState where
  | connecting
  | open
  | closing
  | closed
deriving Repr, DecidableEq

/-- A socket object: its identity (`new WebSocket` creates a fresh one)
and its ready state. -/
structure Sock where
  id : Nat
  readyState : ReadyState
deriving Repr, DecidableEq

/-- The `ConnectionStatus` ref. -/
inductive ConnStatus where
  | disconnected
  | connecting
  | connected
deriving Repr, DecidableEq

/-- Outbound wire messages built by the engine. -/
inductive OutMsg where
  | authenticate (client_type : String) (user_info : Obj) (api_key : String)
  | motor_command (motor_name : String) (velocity_rpm : Int) (direction : String)
  | mode_change (mode : String)
  | emergency_stop
deriving Repr, DecidableEq

/-- Inbound wire messages, by their `type` discriminator. The pairs of
aliased case labels (`blockchain_data`/`blockchain_data_update` and
`motor_state_update`/`motor_update`) share one handler body in the source
and are one constructor each here. A `motor_commands` mapping may bind a
name to `null`, hence `Option MotorCmd` values. -/
inductive InMsg where
  | authenticated (api_access : Option Bool)
  | system_state (mode : String) (motor_states : Option (List (String × MotorState)))
  | mode_changed (new_mode : Option String)
  | blockchain_data (blockchain_data : Option Obj) (data : Option Obj)
      (motor_commands : Option (List (String × Option MotorCmd)))
  | motor_state_update (motor_name : Option String) (state : Option MotorState)
  | motor_command_executed
  | authentication_failed
  | other (t : String)
deriving Repr, DecidableEq

/-- `WEBSOCKET_CONFIG.MODE_CHANGE_DEBOUNCE` (ms). -/
def MODE_CHANGE_DEBOUNCE : Nat := 2000

/-- `WEBSOCKET_CONFIG.RECONNECT_DELAY` (ms). -/
def RECONNECT_DELAY : Nat := 3000

/-- `WEBSOCKET_CONFIG.VISITOR_RECONNECT_DELAY` (ms). -/
def VISITOR_RECONNECT_DELAY : Nat := 5000

/-- The whole closure state of one `useWebSocket(options)` call. -/
structure Client where
  opts : WSOptions
  connectionStatus : ConnStatus
  ws : Option Sock
  nextSockId : Nat
  lastModeChangeTime : Nat
  systemState : SystemState
  sent : List OutMsg
  diagnostics : List String
  reconnectPending : Bool
  authed : Bool
deriving Repr, DecidableEq

/-- `motorCommand.velocity_rpm || 0`: an absent field defaults to `0`
(a present `0` is falsy in JS and also yields `0`). -/
def velOrZero (o : Option Int) : Int := o.getD 0

/-- `motorCommand.direction || 'CW'`: absent or empty string defaults
to `"CW"`. -/
def dirOrCW (o : Option String) : String :=
  match o with
  | some d => if d = "" then "CW" else d
  | none => "CW"

/-- The record built for one `motor_commands` entry in the
`blockchain_data` handler. -/
def cmdRecord (cmd : MotorCmd) (now : Nat) : MotorState where
  velocity_rpm := some (velOrZero cmd.velocity_rpm)
  direction := some (dirOrCW cmd.direction)
  last_update := some (now / 1000)
  is_enabled := some true

/-- The `motorUpdates` object prepared by the `blockchain_data` handler:
a `forEach` over the keys of `motor_commands`, keeping only entries whose
command is non-null and whose name already exists in `stored`. -/
def buildMotorUpdates (stored : List (String × MotorState)) (now : Nat) :
    List (String × Option MotorCmd) → List (String × MotorState) → List (String × MotorState)
  | [], acc => acc
  | (k, c) :: rest, acc =>
      buildMotorUpdates stored now rest
        (match c with
         | some cmd =>
             if (lookupE stored k).isSome then setEntry acc k (cmdRecord cmd now) else acc
         | none => acc)

/-- The second `forEach` of the `blockchain_data` handler:
`Object.assign(systemState.motorStates[k], motorUpdates[k])` for each key of
`motorUpdates` (every such key exists in the states by construction; a
missing key would throw in JS and leaves the states unchanged here). -/
def applyUpdates : List (String × MotorState) → List (String × MotorState) →
    List (String × MotorState)
  | st, [] => st
  | st, (k, v) :: rest =>
      applyUpdates
        (match lookupE st k with
         | some old => setEntry st k (mergeMotor old v)
         | none => st) rest

/-- The `forEach` merge of the `system_state` handler: known names get
`Object.assign`, unknown names are stored verbatim. -/
def mergeMotorStates : List (String × MotorState) → List (String × MotorState) →
    List (String × MotorState)
  | st, [] => st
  | st, (k, v) :: rest =>
      mergeMotorStates
        (match lookupE st k with
         | some old => setEntry st k (mergeMotor old v)
         | none => setEntry st k v) rest

/-- `handleMessage(data)` at local time `now` (ms). -/
def handleMessage (now : Nat) (m : InMsg) (s : Client) : Client :=
  match m with
  | .authenticated _ =>
      { s with connectionStatus := .connected, authed := true }
  | .system_state mode motor_states =>
      if (now : Int) - (s.lastModeChangeTime : Int) > (MODE_CHANGE_DEBOUNCE : Int) then
        let sys1 := { s.systemState with mode := mode }
        let sys2 :=
          match motor_states with
          | some ms => { sys1 with motorStates := mergeMotorStates sys1.motorStates ms }
          | none => sys1
        { s with systemState := sys2 }
      else s
  | .mode_changed new_mode =>
      match new_mode with
      | some nm =>
          if nm = "" then s
          else { s with systemState := { s.systemState with mode := nm } }
      | none => s
  | .blockchain_data bd d motor_commands =>
      let motorUpdates :=
        match motor_commands with
        | some mcs => buildMotorUpdates s.systemState.motorStates now mcs []
        | none => []
      let bd' :=
        match bd with
        | some o => objAssign s.systemState.blockchainData o
        | none =>
            match d with
            | some o => objAssign s.systemState.blockchainData o
            | none => s.systemState.blockchainData
      let ms' := applyUpdates s.systemState.motorStates motorUpdates
      { s with systemState :=
          { s.systemState with blockchainData := bd', motorStates := ms' } }
  | .motor_state_update motor_name state =>
      match motor_name, state with
      | some n, some st =>
          if n = "" then s
          else
            match lookupE s.systemState.motorStates n with
            | some old =>
                { s with systemState :=
                    { s.systemState with
                        motorStates := setEntry s.systemState.motorStates n (mergeMotor old st) } }
            | none =>
                { s with systemState :=
                    { s.systemState with
                        motorStates := setEntry s.systemState.motorStates n st } }
      | _, _ => s
  | .motor_command_executed => s
  | .authentication_failed =>
      { s with connectionStatus := .disconnected,
               diagnostics := s.diagnostics ++ ["Authentication failed"] }
  | .other _ => s

/-- `new WebSocket(url)` plus the `connectionStatus` write: the body of
`connect()` past its early return. -/
def connectProceed (s : Client) : Client :=
  { s with connectionStatus := .connecting,
           ws := some { id := s.nextSockId, readyState := .connecting },
           nextSockId := s.nextSockId + 1,
           authed := false }

/-- `connect()`: early return when the current socket's `readyState` is
`OPEN`, otherwise open a fresh socket and become `connecting`. -/
def connect (s : Client) : Client :=
  match s.ws with
  | some w => if w.readyState = .open then s else connectProceed s
  | none => connectProceed s

/-- The `authenticate` message built in `ws.onopen`. -/
def authMessage (opts : WSOptions) : OutMsg :=
  .authenticate opts.clientType [] (opts.apiKey.getD "")

/-- The socket's `open` event: `readyState` becomes `OPEN`, then `onopen`
runs — the status is deliberately left as is and one `authenticate`
message is sent. -/
def onOpen (s : Client) (w : Sock) : Client :=
  { s with ws := some { w with readyState := .open },
           sent := s.sent ++ [authMessage s.opts] }

/-- The socket's `close` event: `readyState` becomes `CLOSED`, then
`onclose` runs — status becomes `disconnected` and, unless
`options.autoReconnect === false`, `setTimeout(connect, delay)` is
scheduled. -/
def onClose (s : Client) (w : Sock) : Client :=
  { s with ws := some { w with readyState := .closed },
           connectionStatus := .disconnected,
           reconnectPending :=
             if s.opts.autoReconnect ≠ some false then true else s.reconnectPending }

/-- The socket's `error` event: `onerror` logs and sets the status to
`disconnected`. -/
def onError (s : Client) : Client :=
  { s with connectionStatus := .disconnected,
           diagnostics := s.diagnostics ++ ["WebSocket error"] }

/-- `sendMessage(message)`: sends only when the socket is `OPEN`,
otherwise logs a "not connected" diagnostic. -/
def sendMessage (m : OutMsg) (s : Client) : Client :=
  match s.ws with
  | some w =>
      if w.readyState = .open then { s with sent := s.sent ++ [m] }
      else { s with diagnostics := s.diagnostics ++ ["WebSocket not connected"] }
  | none => { s with diagnostics := s.diagnostics ++ ["WebSocket not connected"] }

/-- `sendMotorCommand(motorName, velocity, direction)`. -/
def sendMotorCommand (motorName : String) (velocity : Int) (direction : String)
    (s : Client) : Client :=
  sendMessage (.motor_command motorName velocity direction) s

/-- `switchMode(newMode)` at local time `now`: records
`lastModeChangeTime` before transmitting. -/
def switchMode (now : Nat) (newMode : String) (s : Client) : Client :=
  sendMessage (.mode_change newMode) { s with lastModeChangeTime := now }

/-- `emergencyStop()`. -/
def emergencyStop (s : Client) : Client :=
  sendMessage .emergency_stop s

/-- `updateApiKey(newApiKey)`: mutates `options.apiKey`, then re-sends the
handshake message on the existing socket. -/
def updateApiKey (newApiKey : String) (s : Client) : Client :=
  sendMessage (.authenticate s.opts.clientType [] newApiKey)
    { s with opts := { s.opts with apiKey := some newApiKey } }

/-- `disconnect()`: `ws.close()` when a socket exists (a no-op on an
already-closed socket); nothing else. -/
def disconnect (s : Client) : Client :=
  match s.ws with
  | some w =>
      if w.readyState = .closed then s
      else { s with ws := some { w with readyState := .closing } }
  | none => s

/-- The zeroed default record every known actuator starts with. -/
def initMotor (now : Nat) : MotorState where
  velocity_rpm := some 0
  direction := some "CW"
  last_update := some (now / 1000)
  is_enabled := some true

/-- The construction-time state of `useWebSocket(options)` at time `now`. -/
def initClient (opts : WSOptions) (now : Nat) : Client where
  opts := opts
  connectionStatus := .disconnected
  ws := none
  nextSockId := 0
  lastModeChangeTime := 0
  systemState :=
    { mode := if opts.clientType = "visitor" then "auto" else "manual"
      motorStates :=
        [("motor_canvas", initMotor now), ("motor_pb", initMotor now),
         ("motor_pcd", initMotor now), ("motor_pe", initMotor now)]
      blockchainData :=
        [("eth_price_usd", .num 0), ("gas_price_gwei", .num 0),
         ("base_fee_gwei", .num 0), ("blob_space_utilization_percent", .num 0),
         ("block_fullness_percent", .num 0),
         ("block_number", if opts.clientType = "visitor" then .num 0 else .str "Loading..."),
         ("epoch", if opts.clientType = "visitor" then .num 0 else .str "N/A")] }
  sent := []
  diagnostics := []
  reconnectPending := false
  authed := false

/-- Events of the single-threaded event loop: public method calls, socket
events on the current socket, and the reconnect timer firing. Each socket
event is guarded by the ready state in which the browser can deliver it. -/
inductive Ev where
  | callConnect
  | callDisconnect
  | callSendMotorCommand (motorName : String) (velocity : Int) (direction : String)
  | callSwitchMode (now : Nat) (newMode : String)
  | callEmergencyStop
  | callUpdateApiKey (newApiKey : String)
  | sockOpen
  | sockClose
  | sockError
  | msgArrives (now : Nat) (m : InMsg)
  | timerFires
deriving Repr, DecidableEq

/-- One step of the event loop. Events whose guard does not hold (for
example a `message` on a socket that is not open) leave the state as is. -/
def step (e : Ev) (s : Client) : Client :=
  match e with
  | .callConnect => connect s
  | .callDisconnect => disconnect s
  | .callSendMotorCommand n v d => sendMotorCommand n v d s
  | .callSwitchMode now m => switchMode now m s
  | .callEmergencyStop => emergencyStop s
  | .callUpdateApiKey k => updateApiKey k s
  | .sockOpen =>
      match s.ws with
      | some w => if w.readyState = .connecting then onOpen s w else s
      | none => s
  | .sockClose =>
      match s.ws with
      | some w => if w.readyState ≠ .closed then onClose s w else s
      | none => s
  | .sockError =>
      match s.ws with
      | some _ => onError s
      | none => s
  | .msgArrives now m =>
      match s.ws with
      | some w => if w.readyState = .open then handleMessage now m s else s
      | none => s
  | .timerFires =>
      if s.reconnectPending then connect { s with reconnectPending := false } else s

/-- Run a list of events from a state. -/
def run (s : Client) : List Ev → Client
  | [] => s
  | e :: es => run (step e s) es

/-- `sendCommand(rpm)` of the motor-control component in `HomeView.vue`:
normalizes a signed rpm into a non-negative magnitude and a rotation
sense, which are then emitted and transmitted verbatim. -/
def sendCommand (rpm : Int) : Int × String :=
  ((rpm.natAbs : Int), if 0 ≤ rpm then "CW" else "CCW")

/-! ### Association-list toolkit -/

theorem lookupE_setEntry_self {α : Type} (l : List (String × α)) (k : String) (v : α) :
    lookupE (setEntry l k v) k = some v := by
  induction l with
  | nil => simp [setEntry, lookupE]
  | cons p rest ih =>
      obtain ⟨k', v'⟩ := p
      by_cases h : k' = k
      · simp [setEntry, h, lookupE]
      · simp [setEntry, h, lookupE, ih]

theorem lookupE_setEntry_ne {α : Type} (l : List (String × α)) (k n : String) (v : α)
    (h : n ≠ k) : lookupE (setEntry l k v) n = lookupE l n := by
  induction l with
  | nil => simp [setEntry, lookupE, Ne.symm h]
  | cons p rest ih =>
      obtain ⟨k', v'⟩ := p
      by_cases hk : k' = k
      · subst hk
        simp [setEntry, lookupE, Ne.symm h]
      · simp [setEntry, hk, lookupE, ih]

theorem lookupE_eq_none_of_not_mem {α : Type} (l : List (String × α)) (n : String)
    (h : n ∉ l.map Prod.fst) : lookupE l n = none := by
  induction l with
  | nil => simp [lookupE]
  | cons p rest ih =>
      obtain ⟨k, v⟩ := p
      simp only [List.map_cons, List.mem_cons] at h
      push_neg at h
      simp [lookupE, Ne.symm h.1, ih h.2]

theorem mem_of_lookupE_eq_some {α : Type} (l : List (String × α)) (n : String) (v : α)
    (h : lookupE l n = some v) : (n, v) ∈ l := by
  induction l with
  | nil => simp [lookupE] at h
  | cons p rest ih =>
      obtain ⟨k, w⟩ := p
      by_cases hk : k = n
      · subst hk
        simp [lookupE] at h
        simp [h]
      · simp [lookupE, hk] at h
        exact List.mem_cons_of_mem _ (ih h)

theorem not_mem_of_lookupE_eq_none {α : Type} (l : List (String × α)) (n : String)
    (h : lookupE l n = none) : n ∉ l.map Prod.fst := by
  induction l with
  | nil => simp
  | cons p rest ih =>
      obtain ⟨k, w⟩ := p
      by_cases hk : k = n
      · subst hk; simp [lookupE] at h
      · simp [lookupE, hk] at h
        simp only [List.map_cons, List.mem_cons, not_or]
        exact ⟨fun hnk => hk hnk.symm, ih h⟩

theorem setEntry_keys_of_isSome {α : Type} (l : List (String × α)) (k : String) (v : α)
    (h : (lookupE l k).isSome) : (setEntry l k v).map Prod.fst = l.map Prod.fst := by
  induction l with
  | nil => simp [lookupE] at h
  | cons p rest ih =>
      obtain ⟨k', v'⟩ := p
      by_cases hk : k' = k
      · simp [setEntry, hk]
      · simp only [lookupE, hk, if_false] at h
        simp [setEntry, hk, ih h]

theorem setEntry_keys_of_none {α : Type} (l : List (String × α)) (k : String) (v : α)
    (h : lookupE l k = none) : (setEntry l k v).map Prod.fst = l.map Prod.fst ++ [k] := by
  induction l with
  | nil => simp [setEntry]
  | cons p rest ih =>
      obtain ⟨k', v'⟩ := p
      by_cases hk : k' = k
      · subst hk; simp [lookupE] at h
      · simp only [lookupE, hk, if_false] at h
        simp [setEntry, hk, ih h]

theorem setEntry_keys_nodup {α : Type} (l : List (String × α)) (k : String) (v : α)
    (h : (l.map Prod.fst).Nodup) : ((setEntry l k v).map Prod.fst).Nodup := by
  cases hl : lookupE l k with
  | some w => rw [setEntry_keys_of_isSome l k v (by simp [hl])]; exact h
  | none =>
      rw [setEntry_keys_of_none l k v hl]
      refine List.Nodup.append h (List.nodup_singleton k) ?h
      intro x hx hx'
      simp at hx'
      subst hx'
      exact (not_mem_of_lookupE_eq_none l x hl) hx

/-! ### Lemmas about the three merge loops -/

theorem mergeMotor_cmdRecord (old : MotorState) (cmd : MotorCmd) (now : Nat) :
    mergeMotor old (cmdRecord cmd now) = cmdRecord cmd now := rfl

theorem buildMotorUpdates_keys_nodup (stored : List (String × MotorState)) (now : Nat)
    (mcs : List (String × Option MotorCmd)) (acc : List (String × MotorState))
    (hacc : (acc.map Prod.fst).Nodup) :
    ((buildMotorUpdates stored now mcs acc).map Prod.fst).Nodup := by
  induction mcs generalizing acc with
  | nil => exact hacc
  | cons p rest ih =>
      obtain ⟨k, c⟩ := p
      cases c with
      | none => exact ih acc hacc
      | some cmd =>
          by_cases hs : (lookupE stored k).isSome
          · simp only [buildMotorUpdates, hs, if_true]
            exact ih _ (setEntry_keys_nodup acc k _ hacc)
          · simp only [buildMotorUpdates, hs, if_false]
            exact ih acc hacc

theorem buildMotorUpdates_not_mem (stored : List (String × MotorState)) (now : Nat)
    (mcs : List (String × Option MotorCmd)) (acc : List (String × MotorState)) (n : String)
    (h : n ∉ mcs.map Prod.fst) :
    lookupE (buildMotorUpdates stored now mcs acc) n = lookupE acc n := by
  induction mcs generalizing acc with
  | nil => rfl
  | cons p rest ih =>
      obtain ⟨k, c⟩ := p
      simp only [List.map_cons, List.mem_cons, not_or] at h
      cases c with
      | none => exact ih acc h.2
      | some cmd =>
          by_cases hs : (lookupE stored k).isSome
          · simp only [buildMotorUpdates, hs, if_true]
            rw [ih _ h.2, lookupE_setEntry_ne acc k n _ h.1]
          · simp only [buildMotorUpdates, hs, if_false]
            exact ih acc h.2

theorem buildMotorUpdates_found (stored : List (String × MotorState)) (now : Nat)
    (mcs : List (String × Option MotorCmd)) (acc : List (String × MotorState))
    (n : String) (cmd : MotorCmd)
    (hnd : (mcs.map Prod.fst).Nodup) (hmem : (n, some cmd) ∈ mcs)
    (hst : (lookupE stored n).isSome) :
    lookupE (buildMotorUpdates stored now mcs acc) n = some (cmdRecord cmd now) := by
  induction mcs generalizing acc with
  | nil => simp at hmem
  | cons p rest ih =>
      obtain ⟨k, c⟩ := p
      simp only [List.map_cons, List.nodup_cons] at hnd
      rcases List.mem_cons.mp hmem with hhd | htl
      · injection hhd with hk hc
        subst hk
        subst hc
        simp only [buildMotorUpdates, hst, if_true]
        rw [buildMotorUpdates_not_mem stored now rest _ n hnd.1,
            lookupE_setEntry_self]
      · cases c with
        | none => exact ih acc hnd.2 htl
        | some cmd' =>
            by_cases hs : (lookupE stored k).isSome
            · simp only [buildMotorUpdates, hs, if_true]
              exact ih _ hnd.2 htl
            · simp only [buildMotorUpdates, hs, if_false]
              exact ih acc hnd.2 htl

theorem applyUpdates_not_mem (st ups : List (String × MotorState)) (n : String)
    (h : n ∉ ups.map Prod.fst) :
    lookupE (applyUpdates st ups) n = lookupE st n := by
  induction ups generalizing st with
  | nil => rfl
  | cons p rest ih =>
      obtain ⟨k, v⟩ := p
      simp only [List.map_cons, List.mem_cons, not_or] at h
      cases hl : lookupE st k with
      | some old =>
          simp only [applyUpdates, hl]
          rw [ih _ h.2, lookupE_setEntry_ne st k n _ h.1]
      | none =>
          simp only [applyUpdates, hl]
          exact ih st h.2

theorem applyUpdates_lookup (st ups : List (String × MotorState)) (n : String)
    (u old : MotorState) (hnd : (ups.map Prod.fst).Nodup)
    (hu : lookupE ups n = some u) (hst : lookupE st n = some old) :
    lookupE (applyUpdates st ups) n = some (mergeMotor old u) := by
  induction ups generalizing st old with
  | nil => simp [lookupE] at hu
  | cons p rest ih =>
      obtain ⟨k, v⟩ := p
      simp only [List.map_cons, List.nodup_cons] at hnd
      by_cases hk : k = n
      · subst hk
        simp only [lookupE, if_pos rfl, if_true, Option.some.injEq] at hu
        subst hu
        simp only [applyUpdates, hst]
        rw [applyUpdates_not_mem _ rest k hnd.1, lookupE_setEntry_self]
      · simp only [lookupE, hk, if_false] at hu
        cases hl : lookupE st k with
        | some w =>
            simp only [applyUpdates, hl]
            have hst' : lookupE (setEntry st k (mergeMotor w v)) n = some old := by
              rw [lookupE_setEntry_ne st k n (mergeMotor w v) (fun he => hk he.symm)]
              exact hst
            exact ih _ old hnd.2 hu hst'
        | none =>
            simp only [applyUpdates, hl]
            exact ih st old hnd.2 hu hst

theorem applyUpdates_none (st ups : List (String × MotorState)) (n : String)
    (h : lookupE st n = none) : lookupE (applyUpdates st ups) n = none := by
  induction ups generalizing st with
  | nil => exact h
  | cons p rest ih =>
      obtain ⟨k, v⟩ := p
      cases hl : lookupE st k with
      | some old =>
          have hk : n ≠ k := by
            intro he
            subst he
            rw [h] at hl
            exact Option.noConfusion hl
          simp only [applyUpdates, hl]
          exact ih _ (by rw [lookupE_setEntry_ne st k n _ hk]; exact h)
      | none =>
          simp only [applyUpdates, hl]
          exact ih st h

theorem mergeMotorStates_isSome (st l : List (String × MotorState)) (n : String)
    (h : (lookupE st n).isSome) :
    (lookupE (mergeMotorStates st l) n).isSome := by
  induction l generalizing st with
  | nil => exact h
  | cons p rest ih =>
      obtain ⟨k, v⟩ := p
      by_cases hk : k = n
      · subst hk
        cases hl : lookupE st k with
        | some old =>
            simp only [mergeMotorStates, hl]
            exact ih _ (by rw [lookupE_setEntry_self]; rfl)
        | none =>
            simp only [mergeMotorStates, hl]
            exact ih _ (by rw [lookupE_setEntry_self]; rfl)
      · have hk' : n ≠ k := fun he => hk he.symm
        cases hl : lookupE st k with
        | some old =>
            simp only [mergeMotorStates, hl]
            exact ih _ (by rw [lookupE_setEntry_ne st k n _ hk']; exact h)
        | none =>
            simp only [mergeMotorStates, hl]
            exact ih _ (by rw [lookupE_setEntry_ne st k n _ hk']; exact h)

theorem mergeMotorStates_isSome_of_mem (st l : List (String × MotorState)) (n : String)
    (h : n ∈ l.map Prod.fst) :
    (lookupE (mergeMotorStates st l) n).isSome := by
  induction l generalizing st with
  | nil => simp at h
  | cons p rest ih =>
      obtain ⟨k, v⟩ := p
      by_cases hk : k = n
      · subst hk
        cases hl : lookupE st k with
        | some old =>
            simp only [mergeMotorStates, hl]
            exact mergeMotorStates_isSome _ rest k (by rw [lookupE_setEntry_self]; rfl)
        | none =>
            simp only [mergeMotorStates, hl]
            exact mergeMotorStates_isSome _ rest k (by rw [lookupE_setEntry_self]; rfl)
      · simp only [List.map_cons, List.mem_cons] at h
        rcases h with he | htl
        · exact absurd he.symm hk
        · cases hl : lookupE st k with
          | some old =>
              simp only [mergeMotorStates, hl]
              exact ih _ htl
          | none =>
              simp only [mergeMotorStates, hl]
              exact ih _ htl

/-! ### Non-negativity of stored speed magnitudes -/

/-- The stored speed magnitude of one record is non-negative (an absent
field counts as the default `0`). -/
def MotorNonNeg (m : MotorState) : Prop := 0 ≤ m.velocity_rpm.getD 0

instance (m : MotorState) : Decidable (MotorNonNeg m) := by
  unfold MotorNonNeg; infer_instance

/-- Every record of a motor-state map has a non-negative magnitude. -/
def StatesNonNeg (l : List (String × MotorState)) : Prop := ∀ p ∈ l, MotorNonNeg p.2

instance (l : List (String × MotorState)) : Decidable (StatesNonNeg l) :=
  List.decidableBAll _ l

/-- A `motor_commands` entry carries a non-negative velocity (or none). -/
def CmdNonNeg : Option MotorCmd → Prop
  | some cmd => 0 ≤ cmd.velocity_rpm.getD 0
  | none => True

/-- Every velocity field carried by an inbound message is non-negative. -/
def MsgNonNeg : InMsg → Prop
  | .system_state _ (some ms) => ∀ p ∈ ms, MotorNonNeg p.2
  | .blockchain_data _ _ (some mcs) => ∀ p ∈ mcs, CmdNonNeg p.2
  | .motor_state_update _ (some st) => MotorNonNeg st
  | _ => True

/-- Every velocity field carried by an event is non-negative. -/
def EvNonNeg : Ev → Prop
  | .msgArrives _ m => MsgNonNeg m
  | _ => True

theorem mergeMotor_nonneg (a b : MotorState) (ha : MotorNonNeg a) (hb : MotorNonNeg b) :
    MotorNonNeg (mergeMotor a b) := by
  unfold MotorNonNeg mergeMotor at *
  cases hbv : b.velocity_rpm with
  | some v =>
      rw [hbv] at hb
      simpa using hb
  | none =>
      simpa using ha

theorem setEntry_nonneg (l : List (String × MotorState)) (k : String) (v : MotorState)
    (hl : StatesNonNeg l) (hv : MotorNonNeg v) : StatesNonNeg (setEntry l k v) := by
  induction l with
  | nil =>
      intro p hp
      simp [setEntry] at hp
      rw [hp]
      exact hv
  | cons q rest ih =>
      obtain ⟨k', v'⟩ := q
      have hrest : StatesNonNeg rest := fun p hp => hl p (List.mem_cons_of_mem _ hp)
      by_cases hk : k' = k
      · intro p hp
        simp only [setEntry, hk, if_pos rfl] at hp
        rcases List.mem_cons.mp hp with he | htl
        · rw [he]; exact hv
        · exact hrest p htl
      · intro p hp
        simp only [setEntry, hk, if_false] at hp
        rcases List.mem_cons.mp hp with he | htl
        · rw [he]; exact hl (k', v') (List.mem_cons_self _ _)
        · exact ih hrest p htl

theorem mergeMotorStates_nonneg (st l : List (String × MotorState))
    (hs : StatesNonNeg st) (hl : StatesNonNeg l) :
    StatesNonNeg (mergeMotorStates st l) := by
  induction l generalizing st with
  | nil => exact hs
  | cons q rest ih =>
      obtain ⟨k, v⟩ := q
      have hv : MotorNonNeg v := hl (k, v) (List.mem_cons_self _ _)
      have hrest : StatesNonNeg rest := fun p hp => hl p (List.mem_cons_of_mem _ hp)
      cases hlk : lookupE st k with
      | some old =>
          simp only [mergeMotorStates, hlk]
          exact ih _ (setEntry_nonneg st k _ hs
            (mergeMotor_nonneg old v (hs (k, old) (mem_of_lookupE_eq_some st k old hlk)) hv))
            hrest
      | none =>
          simp only [mergeMotorStates, hlk]
          exact ih _ (setEntry_nonneg st k v hs hv) hrest

theorem cmdRecord_nonneg (cmd : MotorCmd) (now : Nat) (h : CmdNonNeg (some cmd)) :
    MotorNonNeg (cmdRecord cmd now) := by
  unfold CmdNonNeg at h
  unfold MotorNonNeg cmdRecord velOrZero
  simpa using h

theorem buildMotorUpdates_nonneg (stored : List (String × MotorState)) (now : Nat)
    (mcs : List (String × Option MotorCmd)) (acc : List (String × MotorState))
    (hm : ∀ p ∈ mcs, CmdNonNeg p.2) (hacc : StatesNonNeg acc) :
    StatesNonNeg (buildMotorUpdates stored now mcs acc) := by
  induction mcs generalizing acc with
  | nil => exact hacc
  | cons q rest ih =>
      obtain ⟨k, c⟩ := q
      have hrest : ∀ p ∈ rest, CmdNonNeg p.2 := fun p hp => hm p (List.mem_cons_of_mem _ hp)
      cases c with
      | none => exact ih acc hrest hacc
      | some cmd =>
          by_cases hs : (lookupE stored k).isSome
          · simp only [buildMotorUpdates, hs, if_true]
            exact ih _ hrest (setEntry_nonneg acc k _ hacc
              (cmdRecord_nonneg cmd now (hm (k, some cmd) (List.mem_cons_self _ _))))
          · simp only [buildMotorUpdates, hs, if_false]
            exact ih acc hrest hacc

theorem applyUpdates_nonneg (st ups : List (String × MotorState))
    (hs : StatesNonNeg st) (hu : StatesNonNeg ups) :
    StatesNonNeg (applyUpdates st ups) := by
  induction ups generalizing st with
  | nil => exact hs
  | cons q rest ih =>
      obtain ⟨k, v⟩ := q
      have hv : MotorNonNeg v := hu (k, v) (List.mem_cons_self _ _)
      have hrest : StatesNonNeg rest := fun p hp => hu p (List.mem_cons_of_mem _ hp)
      cases hlk : lookupE st k with
      | some old =>
          simp only [applyUpdates, hlk]
          exact ih _ (setEntry_nonneg st k _ hs
            (mergeMotor_nonneg old v (hs (k, old) (mem_of_lookupE_eq_some st k old hlk)) hv))
            hrest
      | none =>
          simp only [applyUpdates, hlk]
          exact ih st hs hrest

theorem handleMessage_nonneg (now : Nat) (m : InMsg) (s : Client)
    (hs : StatesNonNeg s.systemState.motorStates) (hm : MsgNonNeg m) :
    StatesNonNeg (handleMessage now m s).systemState.motorStates := by
  cases m with
  | authenticated a => exact hs
  | system_state mode motor_states =>
      simp only [handleMessage]
      by_cases ht : (now : Int) - (s.lastModeChangeTime : Int) > (MODE_CHANGE_DEBOUNCE : Int)
      · simp only [ht, if_true]
        cases motor_states with
        | none => exact hs
        | some ms => exact mergeMotorStates_nonneg _ ms hs hm
      · simp only [ht, if_false]
        exact hs
  | mode_changed new_mode =>
      cases new_mode with
      | none => exact hs
      | some nm =>
          simp only [handleMessage]
          by_cases hnm : nm = ""
          · simp only [hnm, if_pos rfl]
            exact hs
          · simp only [hnm, if_false]
            exact hs
  | blockchain_data bd d motor_commands =>
      simp only [handleMessage]
      cases motor_commands with
      | none =>
          exact applyUpdates_nonneg _ [] hs (by intro p hp; simp at hp)
      | some mcs =>
          exact applyUpdates_nonneg _ _ hs
            (buildMotorUpdates_nonneg _ now mcs [] hm (by intro p hp; simp at hp))
  | motor_state_update motor_name state =>
      cases motor_name with
      | none => exact hs
      | some n =>
          cases state with
          | none => exact hs
          | some st0 =>
              simp only [handleMessage]
              by_cases hn : n = ""
              · simp only [hn, if_pos rfl]
                exact hs
              · simp only [hn, if_false]
                cases hlk : lookupE s.systemState.motorStates n with
                | some old =>
                    exact setEntry_nonneg _ n _ hs
                      (mergeMotor_nonneg old st0
                        (hs (n, old) (mem_of_lookupE_eq_some _ n old hlk)) hm)
                | none =>
                    exact setEntry_nonneg _ n st0 hs hm
  | motor_command_executed => exact hs
  | authentication_failed => exact hs
  | other t => exact hs

/-! ### The authentication-gating invariant -/

/-- The status is reported as `connected` only once an `authenticated`
reply has been received on the current socket. -/
def AuthInv (s : Client) : Prop :=
  s.connectionStatus = .connected → s.authed = true

theorem handleMessage_connStatus (now : Nat) (m : InMsg) (s : Client) :
    (handleMessage now m s).connectionStatus = s.connectionStatus ∨
      (handleMessage now m s).connectionStatus = .connected ∧ (∃ a, m = .authenticated a) ∨
      (handleMessage now m s).connectionStatus = .disconnected ∧ m = .authentication_failed := by
  cases m with
  | authenticated a => exact Or.inr (Or.inl ⟨rfl, a, rfl⟩)
  | system_state mode motor_states =>
      simp only [handleMessage]
      by_cases ht : (now : Int) - (s.lastModeChangeTime : Int) > (MODE_CHANGE_DEBOUNCE : Int) <;>
        simp [ht]
  | mode_changed new_mode =>
      cases new_mode with
      | none => exact Or.inl rfl
      | some nm =>
          simp only [handleMessage]
          by_cases hnm : nm = "" <;> simp [hnm]
  | blockchain_data bd d motor_commands => exact Or.inl rfl
  | motor_state_update motor_name state =>
      cases motor_name with
      | none => exact Or.inl rfl
      | some n =>
          cases state with
          | none => exact Or.inl rfl
          | some st0 =>
              simp only [handleMessage]
              by_cases hn : n = ""
              · simp [hn]
              · simp only [hn, if_false]
                cases lookupE s.systemState.motorStates n <;> simp
  | motor_command_executed => exact Or.inl rfl
  | authentication_failed => exact Or.inr (Or.inr ⟨rfl, rfl⟩)
  | other t => exact Or.inl rfl

theorem handleMessage_authed (now : Nat) (m : InMsg) (s : Client) :
    (handleMessage now m s).authed = s.authed ∨ (handleMessage now m s).authed = true := by
  cases m with
  | authenticated a => exact Or.inr rfl
  | system_state mode motor_states =>
      simp only [handleMessage]
      by_cases ht : (now : Int) - (s.lastModeChangeTime : Int) > (MODE_CHANGE_DEBOUNCE : Int) <;>
        simp [ht]
  | mode_changed new_mode =>
      cases new_mode with
      | none => exact Or.inl rfl
      | some nm =>
          simp only [handleMessage]
          by_cases hnm : nm = "" <;> simp [hnm]
  | blockchain_data bd d motor_commands => exact Or.inl rfl
  | motor_state_update motor_name state =>
      cases motor_name with
      | none => exact Or.inl rfl
      | some n =>
          cases state with
          | none => exact Or.inl rfl
          | some st0 =>
              simp only [handleMessage]
              by_cases hn : n = ""
              · simp [hn]
              · simp only [hn, if_false]
                cases lookupE s.systemState.motorStates n <;> simp
  | motor_command_executed => exact Or.inl rfl
  | authentication_failed => exact Or.inl rfl
  | other t => exact Or.inl rfl

theorem sendMessage_connStatus (m : OutMsg) (s : Client) :
    (sendMessage m s).connectionStatus = s.connectionStatus ∧
      (sendMessage m s).authed = s.authed := by
  unfold sendMessage
  cases s.ws with
  | none => exact ⟨rfl, rfl⟩
  | some w => by_cases hw : w.readyState = .open <;> simp [hw]

theorem connect_authInv (s : Client) (h : AuthInv s) : AuthInv (connect s) := by
  unfold connect
  cases s.ws with
  | none => intro hc; exact absurd hc (by simp [connectProceed])
  | some w =>
      by_cases hw : w.readyState = .open
      · simpa [hw] using h
      · simp only [hw, if_false]
        intro hc
        exact absurd hc (by simp [connectProceed])

theorem step_authInv (e : Ev) (s : Client) (h : AuthInv s) : AuthInv (step e s) := by
  intro hc
  cases e with
  | callConnect => exact connect_authInv s h hc
  | callDisconnect =>
      simp only [step] at hc ⊢
      cases hws : s.ws with
      | none => simp only [disconnect, hws] at hc ⊢; exact h hc
      | some w =>
          by_cases hw : w.readyState = .closed
          · simp [disconnect, hws, hw] at hc ⊢; exact h hc
          · simp [disconnect, hws, hw] at hc ⊢; exact h hc
  | callSendMotorCommand n v d =>
      simp only [step, sendMotorCommand] at hc ⊢
      have hp := sendMessage_connStatus (.motor_command n v d) s
      rw [hp.2]
      exact h (hp.1 ▸ hc)
  | callSwitchMode now m =>
      simp only [step, switchMode] at hc ⊢
      have hp := sendMessage_connStatus (.mode_change m) { s with lastModeChangeTime := now }
      rw [hp.2]
      exact h (hp.1 ▸ hc)
  | callEmergencyStop =>
      simp only [step, emergencyStop] at hc ⊢
      have hp := sendMessage_connStatus .emergency_stop s
      rw [hp.2]
      exact h (hp.1 ▸ hc)
  | callUpdateApiKey k =>
      simp only [step, updateApiKey] at hc ⊢
      have hp := sendMessage_connStatus (.authenticate s.opts.clientType [] k)
        { s with opts := { s.opts with apiKey := some k } }
      rw [hp.2]
      exact h (hp.1 ▸ hc)
  | sockOpen =>
      simp only [step] at hc ⊢
      cases hws : s.ws with
      | none => simp only [hws] at hc ⊢; exact h hc
      | some w =>
          by_cases hw : w.readyState = .connecting
          · simp [hws, hw, onOpen] at hc ⊢; exact h hc
          · simp [hws, hw] at hc ⊢; exact h hc
  | sockClose =>
      simp only [step] at hc ⊢
      cases hws : s.ws with
      | none => simp only [hws] at hc ⊢; exact h hc
      | some w =>
          by_cases hw : w.readyState = .closed
          · simp [hws, hw] at hc ⊢; exact h hc
          · simp [hws, hw, onClose] at hc
  | sockError =>
      simp only [step] at hc ⊢
      cases hws : s.ws with
      | none => simp only [hws] at hc ⊢; exact h hc
      | some w => simp [hws, onError] at hc
  | msgArrives now m =>
      simp only [step] at hc ⊢
      cases hws : s.ws with
      | none => simp only [hws] at hc ⊢; exact h hc
      | some w =>
          by_cases hw : w.readyState = .open
          · simp only [hws, hw, if_pos rfl, if_true] at hc ⊢
            rcases handleMessage_connStatus now m s with hcs | ⟨_, a, hm⟩ | ⟨hcs, hm⟩
            · rcases handleMessage_authed now m s with ha | ha
              · rw [ha]; exact h (hcs ▸ hc)
              · exact ha
            · subst hm; rfl
            · rw [hcs] at hc; exact absurd hc (by simp)
          · simp [hws, hw] at hc ⊢; exact h hc
  | timerFires =>
      simp only [step] at hc ⊢
      by_cases hp : s.reconnectPending
      · simp only [hp, if_pos rfl, if_true] at hc ⊢
        exact connect_authInv { s with reconnectPending := false } (fun hcc => h hcc) hc
      · simp [hp] at hc ⊢; exact h hc

theorem run_authInv (es : List Ev) (s : Client) (h : AuthInv s) : AuthInv (run s es) := by
  induction es generalizing s with
  | nil => exact h
  | cons e rest ih => exact ih _ (step_authInv e s h)

/-! ### Claim theorems -/

/-- A concrete `WebSocketOptions` value used by concrete scenarios. -/
def opts0 : WSOptions where
  clientType := "web_ui"
  apiKey := none
  autoReconnect := none
  reconnectDelay := none

/-- C1: counterexample. A `system_state` message arriving 1000 ms after a
local mode-change request for `"auto"`, reporting mode `"manual"` and a
`motor_canvas` velocity of 42, leaves the mirror's `motor_canvas` record
completely untouched: the per-actuator fields are NOT merged inside the
debounce window, contradicting the claimed partial acceptance. -/
theorem c1_counterexample :
    lookupE (run (initClient opts0 5000)
      [Ev.callConnect, Ev.sockOpen, Ev.callSwitchMode 10000 "auto",
       Ev.msgArrives 11000 (InMsg.system_state "manual"
         (some [("motor_canvas", ⟨some 42, none, none, none⟩)]))]).systemState.motorStates
      "motor_canvas" = some (initMotor 5000) ∧
    (run (initClient opts0 5000)
      [Ev.callConnect, Ev.sockOpen, Ev.callSwitchMode 10000 "auto",
       Ev.msgArrives 11000 (InMsg.system_state "manual"
         (some [("motor_canvas", ⟨some 42, none, none, none⟩)]))]).systemState.mode
      = "manual" := by
  exact ⟨rfl, rfl⟩

/-- C1 (amended): for every `system_state` message arriving within the
debounce window (2000 ms) after a local mode-change request, the handler
ignores the message wholesale — the operating mode is left unchanged AND
none of the per-actuator fields are merged, regardless of the message's
mode. -/
theorem c1_debounce_drops_whole_message (s : Client) (now : Nat) (mode : String)
    (ms : Option (List (String × MotorState)))
    (h : (now : Int) - (s.lastModeChangeTime : Int) ≤ (MODE_CHANGE_DEBOUNCE : Int)) :
    handleMessage now (.system_state mode ms) s = s := by
  simp only [handleMessage]
  rw [if_neg (not_lt.mpr h)]

/-- Witness for C1's amended theorem at a concrete input. -/
theorem c1_witness :
    ((1000 : Int) - ((initClient opts0 0).lastModeChangeTime : Int)
        ≤ (MODE_CHANGE_DEBOUNCE : Int)) ∧
    handleMessage 1000 (.system_state "auto" none) (initClient opts0 0)
      = initClient opts0 0 :=
  ⟨by decide, c1_debounce_drops_whole_message (initClient opts0 0) 1000 "auto" none (by decide)⟩

/-- C2: after socket-open the status stays what it was (`connecting`) and
exactly one `authenticate {client_type, user_info: {}, api_key}` message is
sent; `handleMessage` reports `connected` only upon an `authenticated`
message; and in every reachable state a client reported `connected` has
received an `authenticated` reply on its current socket — an open but
unauthenticated socket is never reported as `connected`. -/
theorem c2_connected_requires_auth :
    (∀ s w, s.ws = some w → w.readyState = .connecting →
      (step .sockOpen s).connectionStatus = s.connectionStatus ∧
      (step .sockOpen s).sent
        = s.sent ++ [OutMsg.authenticate s.opts.clientType [] (s.opts.apiKey.getD "")]) ∧
    (∀ now m s, (handleMessage now m s).connectionStatus = .connected →
      s.connectionStatus = .connected ∨ ∃ a, m = InMsg.authenticated a) ∧
    (∀ opts now es, (run (initClient opts now) es).connectionStatus = .connected →
      (run (initClient opts now) es).authed = true) := by
  refine ⟨?p1, ?p2, ?p3⟩
  · intro s w hws hw
    simp [step, hws, hw, onOpen, authMessage]
  · intro now m s hc
    rcases handleMessage_connStatus now m s with hcs | ⟨_, a, hm⟩ | ⟨hcs, hm⟩
    · exact Or.inl (hcs ▸ hc)
    · exact Or.inr ⟨a, hm⟩
    · rw [hcs] at hc; exact absurd hc (by simp)
  · intro opts now es
    exact run_authInv es (initClient opts now) (by intro hcc; simp [initClient] at hcc)

/-- Witness for C2 at concrete inputs: the open event on a fresh socket
sends the handshake message, and a client that became `connected` via an
`authenticated` reply is marked authenticated. -/
theorem c2_witness :
    (step .sockOpen (run (initClient opts0 0) [Ev.callConnect])).sent
      = [OutMsg.authenticate "web_ui" [] ""] ∧
    (run (initClient opts0 0)
      [Ev.callConnect, Ev.sockOpen, Ev.msgArrives 1 (.authenticated none)]).authed = true := by
  constructor
  · have h := (c2_connected_requires_auth.1 (run (initClient opts0 0) [Ev.callConnect])
      { id := 0, readyState := .connecting } rfl rfl).2
    simpa using h
  · exact c2_connected_requires_auth.2.2 opts0 0
      [Ev.callConnect, Ev.sockOpen, Ev.msgArrives 1 (.authenticated none)] rfl

/-- C3: counterexample. A `blockchain_data` message whose `motor_commands`
mapping carries an entry for `motor_x` — an identifier unknown to the
mirror — applies the feed delta but does NOT apply that actuator entry:
no record for `motor_x` exists afterwards, so that entry's `last_update`,
`is_enabled`, velocity and direction are never set, contradicting "all
actuator entries present in `motor_commands` are applied". -/
theorem c3_counterexample :
    lookupE (handleMessage 9000
      (InMsg.blockchain_data (some [("eth_price_usd", JVal.num 5)]) none
        (some [("motor_x", some ⟨some 7, none⟩)]))
      (initClient opts0 5000)).systemState.motorStates "motor_x" = none ∧
    lookupE (handleMessage 9000
      (InMsg.blockchain_data (some [("eth_price_usd", JVal.num 5)]) none
        (some [("motor_x", some ⟨some 7, none⟩)]))
      (initClient opts0 5000)).systemState.blockchainData "eth_price_usd"
      = some (JVal.num 5) := by
  exact ⟨rfl, rfl⟩

/-- C3 (amended): within the single `blockchain_data` handler invocation,
the feed delta and every non-null `motor_commands` entry whose identifier
already exists in the mirror are applied together — the resulting state
carries both the merged feed snapshot and the rewritten actuator record,
with `last_update` set to the local receipt time, `is_enabled` forced
true, velocity defaulting to 0 and direction defaulting to `"CW"` when
the field is missing. Entries with identifiers unknown to the mirror are
discarded. -/
theorem c3_blockchain_merge_atomic (s : Client) (now : Nat) (delta : Obj) (d : Option Obj)
    (mcs : List (String × Option MotorCmd)) (n : String) (cmd : MotorCmd) (old : MotorState)
    (hnd : (mcs.map Prod.fst).Nodup)
    (hmem : (n, some cmd) ∈ mcs)
    (hold : lookupE s.systemState.motorStates n = some old) :
    (handleMessage now (.blockchain_data (some delta) d (some mcs)) s).systemState.blockchainData
      = objAssign s.systemState.blockchainData delta ∧
    lookupE (handleMessage now
        (.blockchain_data (some delta) d (some mcs)) s).systemState.motorStates n
      = some { velocity_rpm := some (velOrZero cmd.velocity_rpm),
               direction := some (dirOrCW cmd.direction),
               last_update := some (now / 1000),
               is_enabled := some true } := by
  constructor
  · rfl
  · simp only [handleMessage]
    have h1 : lookupE (buildMotorUpdates s.systemState.motorStates now mcs []) n
        = some (cmdRecord cmd now) :=
      buildMotorUpdates_found _ now mcs [] n cmd hnd hmem (by rw [hold]; rfl)
    have h2 : ((buildMotorUpdates s.systemState.motorStates now mcs []).map Prod.fst).Nodup :=
      buildMotorUpdates_keys_nodup _ now mcs [] (by simp)
    have h3 := applyUpdates_lookup s.systemState.motorStates _ n _ old h2 h1 hold
    rw [h3, mergeMotor_cmdRecord]
    rfl

/-- Witness for C3's amended theorem at a concrete input. -/
theorem c3_witness :
    lookupE (handleMessage 9000
      (InMsg.blockchain_data (some [("gas_price_gwei", JVal.num 3)]) none
        (some [("motor_pb", some ⟨none, some "CCW"⟩)]))
      (initClient opts0 5000)).systemState.motorStates "motor_pb"
      = some { velocity_rpm := some 0, direction := some "CCW",
               last_update := some 9, is_enabled := some true } := by
  have h := (c3_blockchain_merge_atomic (initClient opts0 5000) 9000
    [("gas_price_gwei", JVal.num 3)] none [("motor_pb", some ⟨none, some "CCW"⟩)]
    "motor_pb" ⟨none, some "CCW"⟩ (initMotor 5000) (by simp) (by simp) rfl).2
  simpa using h

/-- C4: counterexample. A reconnect timer scheduled by a socket close
survives an explicit `disconnect()` (which only calls `ws.close()`), and
when it fires it reopens a fresh connection: after
open → close → `disconnect()` → timer, the client is `connecting` on a
brand-new socket. -/
theorem c4_counterexample :
    (run (initClient opts0 0)
      [Ev.callConnect, Ev.sockOpen, Ev.sockClose, Ev.callDisconnect]).reconnectPending
      = true ∧
    (run (initClient opts0 0)
      [Ev.callConnect, Ev.sockOpen, Ev.sockClose, Ev.callDisconnect,
       Ev.timerFires]).connectionStatus = ConnStatus.connecting ∧
    (run (initClient opts0 0)
      [Ev.callConnect, Ev.sockOpen, Ev.sockClose, Ev.callDisconnect,
       Ev.timerFires]).ws = some { id := 1, readyState := ReadyState.connecting } := by
  exact ⟨rfl, rfl, rfl⟩

/-- C4 (amended): `disconnect()` closes the socket if one exists, but
itself neither changes the connection state nor cancels any pending
reconnection timer; the subsequent close event transitions to
`disconnected` and, when `autoReconnect` is not `false`, (re)schedules a
reconnection — so a scheduled reconnect timer can reopen a connection the
caller deliberately closed. -/
theorem c4_disconnect_behavior :
    (∀ s : Client, (disconnect s).connectionStatus = s.connectionStatus ∧
      (disconnect s).reconnectPending = s.reconnectPending) ∧
    (∀ (s : Client) (w : Sock), s.ws = some w → w.readyState ≠ .closed →
      (disconnect s).ws = some { id := w.id, readyState := .closing }) ∧
    (∀ (s : Client) (w : Sock), s.ws = some w → w.readyState ≠ .closed →
      s.opts.autoReconnect ≠ some false →
      (step .sockClose (disconnect s)).connectionStatus = .disconnected ∧
      (step .sockClose (disconnect s)).reconnectPending = true) := by
  refine ⟨?p1, ?p2, ?p3⟩
  · intro s
    unfold disconnect
    cases s.ws with
    | none => exact ⟨rfl, rfl⟩
    | some w =>
        by_cases hw : w.readyState = .closed
        · simp [hw]
        · simp [hw]
  · intro s w hws hw
    simp [disconnect, hws, hw]
  · intro s w hws hw har
    have hd : (disconnect s).ws = some { id := w.id, readyState := .closing } := by
      simp [disconnect, hws, hw]
    have hopts : (disconnect s).opts = s.opts := by
      simp [disconnect, hws, hw]
    constructor
    · simp [step, hd, onClose]
    · simp [step, hd, onClose, hopts, har]

/-- Witness for C4's amended theorem at a concrete input. -/
theorem c4_witness :
    (step .sockClose (disconnect (run (initClient opts0 0)
      [Ev.callConnect, Ev.sockOpen]))).connectionStatus = ConnStatus.disconnected ∧
    (step .sockClose (disconnect (run (initClient opts0 0)
      [Ev.callConnect, Ev.sockOpen]))).reconnectPending = true := by
  exact c4_disconnect_behavior.2.2 (run (initClient opts0 0) [Ev.callConnect, Ev.sockOpen])
    { id := 0, readyState := .open } rfl (by decide) (by decide)

/-- C5: counterexample. On `authentication_failed` the handler sets the
status to `disconnected` but does not close the socket: afterwards the
socket is still `OPEN` — the connection is not torn down, contradicting
the claim's teardown. -/
theorem c5_counterexample :
    (run (initClient opts0 0)
      [Ev.callConnect, Ev.sockOpen,
       Ev.msgArrives 50 InMsg.authentication_failed]).connectionStatus
      = ConnStatus.disconnected ∧
    (run (initClient opts0 0)
      [Ev.callConnect, Ev.sockOpen,
       Ev.msgArrives 50 InMsg.authentication_failed]).ws
      = some { id := 0, readyState := ReadyState.open } := by
  exact ⟨rfl, rfl⟩

/-- C5 (amended): `authentication_failed` transitions the status to
`disconnected` immediately and surfaces a diagnostic; no reconnection
timer is scheduled in the same tick (the socket-close path is not taken),
but the socket itself is left as it was — the connection is not torn
down. -/
theorem c5_auth_failed_behavior (now : Nat) (s : Client) :
    (handleMessage now .authentication_failed s).connectionStatus = .disconnected ∧
    (handleMessage now .authentication_failed s).ws = s.ws ∧
    (handleMessage now .authentication_failed s).reconnectPending = s.reconnectPending ∧
    (handleMessage now .authentication_failed s).diagnostics
      = s.diagnostics ++ ["Authentication failed"] := by
  exact ⟨rfl, rfl, rfl, rfl⟩

/-- C6: counterexample. After a local mode-change request at t=10000 an
authoritative `mode_changed` to `"auto"` at t=10500 is accepted, but the
debounce guard is NOT cleared: `lastModeChangeTime` still reads 10000, and
a `system_state` reporting mode `"offline"` at t=11000 is still
suppressed — its mode is not applied, contradicting "a later full-state
update is no longer suppressed by the cleared guard". -/
theorem c6_counterexample :
    (run (initClient opts0 0)
      [Ev.callConnect, Ev.sockOpen, Ev.callSwitchMode 10000 "auto",
       Ev.msgArrives 10500 (InMsg.mode_changed (some "auto")),
       Ev.msgArrives 11000 (InMsg.system_state "offline" none)]).systemState.mode
      = "auto" ∧
    (run (initClient opts0 0)
      [Ev.callConnect, Ev.sockOpen, Ev.callSwitchMode 10000 "auto",
       Ev.msgArrives 10500 (InMsg.mode_changed (some "auto")),
       Ev.msgArrives 11000 (InMsg.system_state "offline" none)]).lastModeChangeTime
      = 10000 := by
  exact ⟨rfl, rfl⟩

/-- C6 (amended): every `mode_changed` message carrying a non-empty
`new_mode` updates the operating mode unconditionally — including during
an active debounce window — but the pending mode-change guard is NOT
cleared: `lastModeChangeTime` is left unchanged, so a later full-state
update within the window is still suppressed. -/
theorem c6_mode_changed_authoritative (s : Client) (now : Nat) (nm : String)
    (h : nm ≠ "") :
    (handleMessage now (.mode_changed (some nm)) s).systemState.mode = nm ∧
    (handleMessage now (.mode_changed (some nm)) s).lastModeChangeTime
      = s.lastModeChangeTime ∧
    (handleMessage now (.mode_changed (some nm)) s).systemState.motorStates
      = s.systemState.motorStates := by
  simp [handleMessage, h]

/-- Witness for C6's amended theorem at a concrete input. -/
theorem c6_witness :
    (handleMessage 10500 (.mode_changed (some "auto"))
      (initClient opts0 0)).systemState.mode = "auto" ∧
    (handleMessage 10500 (.mode_changed (some "auto"))
      (initClient opts0 0)).lastModeChangeTime = (initClient opts0 0).lastModeChangeTime :=
  ⟨(c6_mode_changed_authoritative (initClient opts0 0) 10500 "auto" (by decide)).1,
   (c6_mode_changed_authoritative (initClient opts0 0) 10500 "auto" (by decide)).2.1⟩

/-- C7: counterexample. `connect()` while the state is `connecting` (the
socket's readyState is still CONNECTING) is NOT a no-op: it creates a
second socket object (id 1); likewise, after a socket close that
scheduled a reconnect timer, a second `connect()` call before the timer
fires opens a new socket instead of being a no-op. -/
theorem c7_counterexample :
    (run (initClient opts0 0) [Ev.callConnect]).connectionStatus
      = ConnStatus.connecting ∧
    (run (initClient opts0 0) [Ev.callConnect]).ws
      = some { id := 0, readyState := ReadyState.connecting } ∧
    (connect (run (initClient opts0 0) [Ev.callConnect])).ws
      = some { id := 1, readyState := ReadyState.connecting } ∧
    (run (initClient opts0 0) [Ev.callConnect, Ev.sockOpen, Ev.sockClose]).reconnectPending
      = true ∧
    (connect (run (initClient opts0 0)
      [Ev.callConnect, Ev.sockOpen, Ev.sockClose])).ws
      = some { id := 1, readyState := ReadyState.connecting } := by
  exact ⟨rfl, rfl, rfl, rfl, rfl⟩

/-- C7 (amended): `connect()` is a no-op exactly when the current socket's
`readyState` is `OPEN`; in every other situation — no socket yet, a socket
still CONNECTING, or a closed socket (reconnect timer pending or not) —
it opens a fresh socket and transitions the state to `connecting`. -/
theorem c7_connect_noop_iff_open :
    (∀ (s : Client) (w : Sock), s.ws = some w → w.readyState = .open → connect s = s) ∧
    (∀ (s : Client) (w : Sock), s.ws = some w → w.readyState ≠ .open →
      (connect s).ws = some { id := s.nextSockId, readyState := .connecting } ∧
      (connect s).connectionStatus = .connecting) ∧
    (∀ s : Client, s.ws = none →
      (connect s).ws = some { id := s.nextSockId, readyState := .connecting } ∧
      (connect s).connectionStatus = .connecting) := by
  refine ⟨?p1, ?p2, ?p3⟩
  · intro s w hws hw
    simp [connect, hws, hw]
  · intro s w hws hw
    simp [connect, hws, hw, connectProceed]
  · intro s hws
    simp [connect, hws, connectProceed]

/-- Witness for C7's amended theorem at a concrete input. -/
theorem c7_witness :
    connect (run (initClient opts0 0) [Ev.callConnect, Ev.sockOpen])
      = run (initClient opts0 0) [Ev.callConnect, Ev.sockOpen] :=
  c7_connect_noop_iff_open.1 (run (initClient opts0 0) [Ev.callConnect, Ev.sockOpen])
    { id := 0, readyState := .open } rfl rfl

/-- C8: an actuator command built from intended signed velocity `v` is
normalized before transmission: magnitude `|v|` with sense `"CCW"`
(Reverse) when `v < 0`, magnitude `v` with sense `"CW"` (Forward) when
`v ≥ 0`; the magnitude is never negative, and the `motor_command` message
transmits exactly the normalized pair. -/
theorem c8_normalized_commands (rpm : Int) (motorName : String) (s : Client) (w : Sock) :
    (rpm < 0 → sendCommand rpm = (|rpm|, "CCW")) ∧
    (0 ≤ rpm → sendCommand rpm = (rpm, "CW")) ∧
    0 ≤ (sendCommand rpm).1 ∧
    (s.ws = some w → w.readyState = .open →
      (sendMotorCommand motorName (sendCommand rpm).1 (sendCommand rpm).2 s).sent
        = s.sent ++ [OutMsg.motor_command motorName (sendCommand rpm).1 (sendCommand rpm).2]) := by
  refine ⟨?p1, ?p2, ?p3, ?p4⟩
  · intro h
    unfold sendCommand
    rw [if_neg (not_le.mpr h), Int.abs_eq_natAbs]
  · intro h
    unfold sendCommand
    rw [if_pos h]
    have : (rpm.natAbs : Int) = rpm := Int.natAbs_of_nonneg h
    rw [this]
  · unfold sendCommand
    exact Int.natCast_nonneg _
  · intro hws hw
    simp [sendMotorCommand, sendMessage, hws, hw]

/-- Witness for C8 at a concrete input. -/
theorem c8_witness :
    sendCommand (-3) = (3, "CCW") ∧ sendCommand 4 = (4, "CW") := by
  constructor
  · have h := (c8_normalized_commands (-3) "motor_pb" (initClient opts0 0)
      { id := 0, readyState := .open }).1 (by decide)
    simpa using h
  · exact (c8_normalized_commands 4 "motor_pb" (initClient opts0 0)
      { id := 0, readyState := .open }).2.1 (by decide)

instance : (c : Option MotorCmd) → Decidable (CmdNonNeg c)
  | none => isTrue trivial
  | some cmd => inferInstanceAs (Decidable (0 ≤ cmd.velocity_rpm.getD 0))

instance : (m : InMsg) → Decidable (MsgNonNeg m)
  | .authenticated _ => isTrue trivial
  | .system_state _ (some ms) => List.decidableBAll _ ms
  | .system_state _ none => isTrue trivial
  | .mode_changed _ => isTrue trivial
  | .blockchain_data _ _ (some mcs) => List.decidableBAll _ mcs
  | .blockchain_data _ _ none => isTrue trivial
  | .motor_state_update _ (some st) => inferInstanceAs (Decidable (MotorNonNeg st))
  | .motor_state_update _ none => isTrue trivial
  | .motor_command_executed => isTrue trivial
  | .authentication_failed => isTrue trivial
  | .other _ => isTrue trivial

instance : (e : Ev) → Decidable (EvNonNeg e)
  | .callConnect => isTrue trivial
  | .callDisconnect => isTrue trivial
  | .callSendMotorCommand _ _ _ => isTrue trivial
  | .callSwitchMode _ _ => isTrue trivial
  | .callEmergencyStop => isTrue trivial
  | .callUpdateApiKey _ => isTrue trivial
  | .sockOpen => isTrue trivial
  | .sockClose => isTrue trivial
  | .sockError => isTrue trivial
  | .msgArrives _ m => inferInstanceAs (Decidable (MsgNonNeg m))
  | .timerFires => isTrue trivial

theorem connect_systemState (s : Client) : (connect s).systemState = s.systemState := by
  unfold connect
  cases s.ws with
  | none => rfl
  | some w =>
      by_cases hw : w.readyState = .open
      · simp [hw]
      · simp [hw, connectProceed]

theorem disconnect_systemState (s : Client) :
    (disconnect s).systemState = s.systemState := by
  unfold disconnect
  cases s.ws with
  | none => rfl
  | some w =>
      by_cases hw : w.readyState = .closed
      · simp [hw]
      · simp [hw]

theorem sendMessage_systemState (m : OutMsg) (s : Client) :
    (sendMessage m s).systemState = s.systemState := by
  unfold sendMessage
  cases s.ws with
  | none => rfl
  | some w =>
      by_cases hw : w.readyState = .open
      · simp [hw]
      · simp [hw]

/-- C9: counterexample. A `motor_state_update` carrying a negative
velocity is stored verbatim: the mirror ends up with
`velocity_rpm = -5` for `motor_canvas`, violating the claimed invariant
that a negative magnitude is never stored. -/
theorem c9_counterexample :
    lookupE (handleMessage 99000
      (InMsg.motor_state_update (some "motor_canvas")
        (some ⟨some (-5), none, none, none⟩))
      (initClient opts0 5000)).systemState.motorStates "motor_canvas"
      = some ⟨some (-5), some "CW", some 5, some true⟩ ∧
    ¬ StatesNonNeg (handleMessage 99000
      (InMsg.motor_state_update (some "motor_canvas")
        (some ⟨some (-5), none, none, none⟩))
      (initClient opts0 5000)).systemState.motorStates := by
  exact ⟨rfl, by decide⟩

/-- C9 (amended): the handlers never sanitize velocities — a negative
inbound magnitude is stored verbatim — but every operation of the engine
(every event of the loop, inbound message handling and outbound command
issuance alike) preserves the non-negativity of all stored magnitudes
provided every velocity field carried by the event is itself
non-negative. -/
theorem c9_nonneg_preserved (e : Ev) (s : Client)
    (hs : StatesNonNeg s.systemState.motorStates) (he : EvNonNeg e) :
    StatesNonNeg (step e s).systemState.motorStates := by
  cases e with
  | callConnect => simpa [step, connect_systemState] using hs
  | callDisconnect => simpa [step, disconnect_systemState] using hs
  | callSendMotorCommand n v d =>
      simpa [step, sendMotorCommand, sendMessage_systemState] using hs
  | callSwitchMode now m =>
      simpa [step, switchMode, sendMessage_systemState] using hs
  | callEmergencyStop =>
      simpa [step, emergencyStop, sendMessage_systemState] using hs
  | callUpdateApiKey k =>
      simpa [step, updateApiKey, sendMessage_systemState] using hs
  | sockOpen =>
      simp only [step]
      cases hws : s.ws with
      | none => exact hs
      | some w =>
          by_cases hw : w.readyState = .connecting
          · simpa [hw, onOpen] using hs
          · simpa [hw] using hs
  | sockClose =>
      simp only [step]
      cases hws : s.ws with
      | none => exact hs
      | some w =>
          by_cases hw : w.readyState = .closed
          · simpa [hw] using hs
          · simpa [hw, onClose] using hs
  | sockError =>
      simp only [step]
      cases hws : s.ws with
      | none => exact hs
      | some w => simpa [onError] using hs
  | msgArrives now m =>
      simp only [step]
      cases hws : s.ws with
      | none => exact hs
      | some w =>
          by_cases hw : w.readyState = .open
          · simp only [hw, if_pos rfl, if_true]
            exact handleMessage_nonneg now m s hs he
          · simpa [hw] using hs
  | timerFires =>
      by_cases hp : s.reconnectPending
      · simpa [step, hp, connect_systemState] using hs
      · simpa [step, hp] using hs

/-- Witness for C9's amended theorem at a concrete input. -/
theorem c9_witness :
    StatesNonNeg (step
      (Ev.msgArrives 7000 (InMsg.motor_state_update (some "motor_pb")
        (some ⟨some 3, none, none, none⟩)))
      (run (initClient opts0 0) [Ev.callConnect, Ev.sockOpen])).systemState.motorStates :=
  c9_nonneg_preserved
    (Ev.msgArrives 7000 (InMsg.motor_state_update (some "motor_pb")
      (some ⟨some 3, none, none, none⟩)))
    (run (initClient opts0 0) [Ev.callConnect, Ev.sockOpen])
    (by decide) (by decide)

/-- C10: in the `blockchain_data` handler a `motor_commands` entry whose
identifier is not already present in the mirror is silently discarded —
no new record is created — while the `motor_state_update` handler stores
the state of an unknown identifier as a new record and the `system_state`
handler (outside the debounce window) creates records for unknown
identifiers as well. -/
theorem c10_unknown_motor_discarded :
    (∀ (s : Client) (now : Nat) bd d mcs (n : String),
      lookupE s.systemState.motorStates n = none →
      lookupE (handleMessage now
        (.blockchain_data bd d mcs) s).systemState.motorStates n = none) ∧
    (∀ (s : Client) (now : Nat) (n : String) (st0 : MotorState), n ≠ "" →
      lookupE s.systemState.motorStates n = none →
      lookupE (handleMessage now
        (.motor_state_update (some n) (some st0)) s).systemState.motorStates n = some st0) ∧
    (∀ (s : Client) (now : Nat) (mode : String) (ms : List (String × MotorState))
        (n : String),
      (now : Int) - (s.lastModeChangeTime : Int) > (MODE_CHANGE_DEBOUNCE : Int) →
      n ∈ ms.map Prod.fst →
      (lookupE (handleMessage now
        (.system_state mode (some ms)) s).systemState.motorStates n).isSome) := by
  refine ⟨?p1, ?p2, ?p3⟩
  · intro s now bd d mcs n hnone
    simp only [handleMessage]
    exact applyUpdates_none _ _ n hnone
  · intro s now n st0 hn hnone
    simp only [handleMessage, hn, if_false, hnone]
    exact lookupE_setEntry_self _ n st0
  · intro s now mode ms n ht hmem
    simp only [handleMessage, ht, if_true, if_pos ht]
    exact mergeMotorStates_isSome_of_mem _ ms n hmem

/-- Witness for C10 at concrete inputs: `motor_x` is unknown to the fresh
mirror; the blockchain handler drops its command, while the two merge
handlers create an entry for it. -/
theorem c10_witness :
    lookupE (handleMessage 9000
      (InMsg.blockchain_data none none (some [("motor_x", some ⟨some 7, none⟩)]))
      (initClient opts0 5000)).systemState.motorStates "motor_x" = none ∧
    lookupE (handleMessage 9000
      (InMsg.motor_state_update (some "motor_x") (some ⟨some 7, none, none, none⟩))
      (initClient opts0 5000)).systemState.motorStates "motor_x"
      = some ⟨some 7, none, none, none⟩ ∧
    (lookupE (handleMessage 9000
      (InMsg.system_state "auto" (some [("motor_x", ⟨some 7, none, none, none⟩)]))
      (initClient opts0 5000)).systemState.motorStates "motor_x").isSome := by
  refine ⟨?h1, ?h2, ?h3⟩
  · exact c10_unknown_motor_discarded.1 (initClient opts0 5000) 9000 none none
      (some [("motor_x", some ⟨some 7, none⟩)]) "motor_x" rfl
  · exact c10_unknown_motor_discarded.2.1 (initClient opts0 5000) 9000 "motor_x"
      ⟨some 7, none, none, none⟩ (by decide) rfl
  · exact c10_unknown_motor_discarded.2.2 (initClient opts0 5000) 9000 "auto"
      [("motor_x", ⟨some 7, none, none, none⟩)] "motor_x" (by decide) (by simp)

end DrawingMachine
